import Mathlib

/-!
Verification of the Roo-NB notebook tool gateway against its specification.

The definitions below are a shallow embedding of the TypeScript sources:
`src/notebook.ts` (NotebookService and the execution-polling helper),
`src/mcp-server.ts` (range validation closures in handleToolCall, and
parseRequestBody), `src/errors.ts` (ErrorFactory), and the older variant of
the polling loop in `src/extension.ts`.  Machine numbers that can be negative
(tool-call indices) are modelled as `Int`; sizes and counts as `Nat`; byte
payloads as their decoded UTF-8 text (`String`), with `String.utf8ByteSize`
standing for the byte count.  Logging calls are side-effect free and are not
modelled.
-/

namespace RooNB

/-! ## Data model (vscode.NotebookCell as seen by the gateway) -/

inductive NotebookCellKind where
  | code
  | markup
deriving DecidableEq, Repr

/-- vscode.NotebookCellExecutionSummary: may exist with or without an
`executionOrder`. -/
structure ExecutionSummary where
  executionOrder : Option Nat
deriving DecidableEq, Repr

/-- One output item: a MIME type and a byte payload (modelled by its decoded
UTF-8 text). -/
structure OutputItem where
  mime : String
  data : String
deriving DecidableEq, Repr

structure CellOutput where
  items : List OutputItem
deriving DecidableEq, Repr

/-- A live notebook cell as read from the document provider. -/
structure NotebookCell where
  index : Nat
  kind : NotebookCellKind
  languageId : String
  content : String
  executionSummary : Option ExecutionSummary
  outputs : List CellOutput
  metadata : Option String
deriving DecidableEq, Repr

/-- `cell.executionSummary?.executionOrder` : optional-chaining flattens the
two optionals. -/
def cellExecOrder (c : NotebookCell) : Option Nat :=
  c.executionSummary.bind (·.executionOrder)

/-- A cell definition supplied by the caller of insert/replace/modify
(`content`, optional `cell_type`, optional `language_id`). -/
structure CellDef where
  content : String
  cell_type : Option String
  language_id : Option String
deriving DecidableEq, Repr

/-- vscode.NotebookCellData as constructed by the handlers. -/
structure NotebookCellData where
  kind : NotebookCellKind
  value : String
  languageId : String
  metadata : Option String
deriving DecidableEq, Repr

/-- JS String.prototype.trim, modelled on the character list (the JS
whitespace set is abstracted by `Char.isWhitespace`). -/
def jsTrim (s : String) : String :=
  ⟨((s.data.dropWhile Char.isWhitespace).reverse.dropWhile Char.isWhitespace).reverse⟩

/-- JS truthiness of an optional string: `undefined` and `""` are falsy. -/
def strTruthy : Option String → Bool
  | none => false
  | some s => !s.isEmpty

/-! ## Errors (src/errors.ts, ErrorFactory) -/

structure RangeErrorContext where
  startIndex : Int
  stopIndex : Int
  cellCount : Nat
  operation : String
deriving DecidableEq, Repr

inductive NbError where
  /-- ErrorFactory.noActiveNotebook -/
  | noActiveNotebook (operation : String)
  /-- ErrorFactory.validationError -/
  | validation (message : String)
  /-- ErrorFactory.rangeOutOfBounds: carries startIndex, stopIndex, cellCount,
  operation in its context. -/
  | rangeOutOfBounds (ctx : RangeErrorContext)
  /-- ErrorFactory.indexOutOfBounds -/
  | indexOutOfBounds (index : Int) (maxIndex : Int) (operation : String)
deriving DecidableEq, Repr

/-! ## Range validation (src/mcp-server.ts, handleToolCall)

The same validation closure is built for each of `replace_notebook_cells`,
`execute_notebook_cells` and `delete_notebook_cells`:

```
if (start_index < 0 || start_index >= cellCount) throw rangeOutOfBounds(...)
if (stop_index <= start_index || stop_index > cellCount) throw rangeOutOfBounds(...)
return { startIndex: start_index, stopIndex: stop_index }
```
-/

def validateRangeArgs (toolName : String) (start_index stop_index : Int)
    (cellCount : Nat) : Except NbError (Nat × Nat) :=
  if start_index < 0 || start_index ≥ (cellCount : Int) then
    .error (.rangeOutOfBounds ⟨start_index, stop_index, cellCount, toolName⟩)
  else if stop_index ≤ start_index || stop_index > (cellCount : Int) then
    .error (.rangeOutOfBounds ⟨start_index, stop_index, cellCount, toolName⟩)
  else
    .ok (start_index.toNat, stop_index.toNat)

/-- The index validation closure built for `modify_notebook_cell_content`. -/
def validateIndexArg (toolName : String) (cell_index : Int)
    (cellCount : Nat) : Except NbError Nat :=
  if cell_index < 0 || cell_index ≥ (cellCount : Int) then
    .error (.indexOutOfBounds cell_index ((cellCount : Int) - 1) toolName)
  else
    .ok cell_index.toNat

/-! ## The two completion-polling loops

`pollFresh` is the loop of `executeNotebookCells` in src/notebook.ts: it
resets `allComplete := true` at the start of every iteration.  `pollStale` is
the loop of the variant in src/extension.ts, which initializes `allComplete`
once before the loop and never resets it.  Both are parametrized by
`check i`, the value the body's for-loop computes over the live cell states
at poll iteration `i` (true iff no watched cell is still pending), and by
`fuel`, the number of loop iterations the deadline admits.  They return the
final value of `allComplete` (which decides the did-not-complete warning)
and the number of iterations performed. -/

def pollFreshAux (check : Nat → Bool) (allComplete : Bool) (i : Nat) :
    Nat → Bool × Nat
  | 0 => (allComplete, i)
  | fuel + 1 =>
    let a := check i
    if a then (a, i + 1) else pollFreshAux check a (i + 1) fuel

def pollFresh (check : Nat → Bool) (fuel : Nat) : Bool × Nat :=
  pollFreshAux check true 0 fuel

def pollStaleAux (check : Nat → Bool) (allComplete : Bool) (i : Nat) :
    Nat → Bool × Nat
  | 0 => (allComplete, i)
  | fuel + 1 =>
    let a := allComplete && check i
    if a then (a, i + 1) else pollStaleAux check a (i + 1) fuel

def pollStale (check : Nat → Bool) (fuel : Nat) : Bool × Nat :=
  pollStaleAux check true 0 fuel

/-! ## Execution Synchronizer (src/notebook.ts, executeNotebookCells)

The poll loop re-reads the live cell objects each iteration; the model makes
those live reads explicit: `live i idx` is the state of the cell with index
`idx` at poll iteration `i`, and `finalCell idx` its state when the report is
assembled after the loop.  `fuel` is the number of iterations the configured
deadline admits. -/

structure ExecEnv where
  live : Nat → Nat → NotebookCell
  finalCell : Nat → NotebookCell
  fuel : Nat

/-- The snapshot taken before the execute command:
`previousExecutionOrders.set(cell.index, cell.executionSummary?.executionOrder)`
for each code cell.  Cell indices in a document are unique, so a first-match
lookup agrees with the Map (whose `set` is last-write-wins). -/
def prevExecutionOrder (codeCells : List NotebookCell) (idx : Nat) : Option Nat :=
  match codeCells.find? (fun c => c.index == idx) with
  | some c => cellExecOrder c
  | none => none

/-- One poll-iteration check over the watched cells: a cell passes when its
live content trims to empty (exempt from the watch) or its live execution
order differs from the snapshot. -/
def watchCheck (codeCells : List NotebookCell) (live : Nat → Nat → NotebookCell)
    (i : Nat) : Bool :=
  codeCells.all fun c =>
    let cur := live i c.index
    jsTrim cur.content == "" || !(cellExecOrder cur == prevExecutionOrder codeCells c.index)

/-! ### Report formatting (src/notebook.ts, showCell and helpers) -/

def isTextOutput (item : OutputItem) : Bool :=
  item.mime.startsWith "text/" ||
  item.mime == "application/vnd.code.notebook.stdout" ||
  item.mime == "application/vnd.code.notebook.stderr" ||
  item.mime == "application/json" ||
  item.mime == "application/javascript"

def showOutputItem (maxOutputSize : Nat) (i : Nat) (item : OutputItem) : String :=
  if isTextOutput item then
    let textContent := item.data
    if textContent.length > maxOutputSize then
      let truncatedText := textContent.take (maxOutputSize - 3)
      toString (i + 1) ++ ". Truncated text with MIME: " ++ item.mime ++
        ", full length: " ++ toString textContent.length ++ " characters\n\n" ++
        "```\n" ++ truncatedText ++ "...\n```\n\n"
    else
      toString (i + 1) ++ ". Text with MIME: " ++ item.mime ++ "\n\n" ++
        "```\n" ++ textContent ++ "\n```\n\n"
  else
    toString (i + 1) ++ ". (Not shown) " ++ toString item.data.utf8ByteSize ++
      " bytes with MIME: " ++ item.mime ++ "\n\n"

def showOutput (maxOutputSize : Nat) (output : CellOutput) : String :=
  "#### Output with " ++ toString output.items.length ++ " items\n\n" ++
  String.join (output.items.enum.map (fun p => showOutputItem maxOutputSize p.1 p.2))

/-- `execLabel` is the execution-order label: the order when present, a
single space otherwise. -/
def execLabelOf (c : NotebookCell) : String :=
  match cellExecOrder c with
  | some n => toString n
  | none => " "

def showCell (cell : NotebookCell) (maxOutputSize : Nat) : String :=
  let cellType := if cell.kind == NotebookCellKind.markup then "markdown" else "code"
  let cellLanguageId := cell.languageId
  let header := "## Cell " ++ toString cell.index ++ " (" ++
    (if cell.kind == NotebookCellKind.code then cellType ++ ":" ++ cellLanguageId
     else cellType) ++ ")\n\n"
  let cellContent := cell.content
  if cell.kind == NotebookCellKind.code then
    let lbl := execLabelOf cell
    let inPart := "### In [" ++ lbl ++ "]:\n\n" ++ "```" ++ cellLanguageId ++ "\n" ++
      cellContent ++ "\n```\n\n"
    let outPart :=
      if cell.outputs.length > 0 then
        "### Out [" ++ lbl ++ "]:\n\n" ++
          String.join (cell.outputs.map (showOutput maxOutputSize))
      else ""
    header ++ inPart ++ outPart
  else
    header ++ "```" ++ cellLanguageId ++ "\n" ++ cellContent ++ "\n```\n\n"

def noCodeCellsReport (startIndex stopIndex : Nat) : String :=
  "# Cell Execution\n\nNo code cells found in the specified range (" ++
  toString startIndex ++ "-" ++ toString ((stopIndex : Int) - 1) ++ ")."

def execWarning (timeoutSeconds : Nat) : String :=
  "> Mind that not all cells completed execution within " ++
  toString timeoutSeconds ++ " seconds!\n"

def execReport (allComplete : Bool) (codeCells : List NotebookCell)
    (startIndex stopIndex : Nat) (finalCell : Nat → NotebookCell)
    (maxOutputSize timeoutSeconds : Nat) : String :=
  "# Cell Execution Results\n\n" ++
  (if !allComplete then execWarning timeoutSeconds else "") ++
  "Executed " ++ toString codeCells.length ++ " code cells in range " ++
  toString startIndex ++ "-" ++ toString ((stopIndex : Int) - 1) ++ ".\n\n" ++
  String.join (codeCells.map (fun c => showCell (finalCell c.index) maxOutputSize ++ "---\n\n"))

/-- Effects of one executeNotebookCells call, recorded for specification:
whether the `notebook.cell.execute` command was issued, how many poll
iterations ran, and the final completion verdict. -/
structure ExecEffects where
  kernelExecuteIssued : Bool
  pollIterations : Nat
  completed : Bool
deriving DecidableEq, Repr

/-- `cells.slice(startIndex, stopIndex)` then
`.filter(cell => cell.kind === Code)`: the code cells of the target range. -/
def rangeCodeCells (cells : List NotebookCell) (startIndex stopIndex : Nat) :
    List NotebookCell :=
  ((cells.drop startIndex).take (stopIndex - startIndex)).filter
    (fun c => c.kind == NotebookCellKind.code)

/-- src/notebook.ts executeNotebookCells: slice the range, keep code cells,
bail out early when there are none; otherwise snapshot, issue the execute
command, poll (fresh-recompute loop) and assemble the report. -/
def executeNotebookCells (cells : List NotebookCell) (startIndex stopIndex : Nat)
    (env : ExecEnv) (maxOutputSize timeoutSeconds : Nat) : String × ExecEffects :=
  let codeCells := rangeCodeCells cells startIndex stopIndex
  if codeCells.length = 0 then
    (noCodeCellsReport startIndex stopIndex, ⟨false, 0, false⟩)
  else
    let r := pollFresh (watchCheck codeCells env.live) env.fuel
    (execReport r.1 codeCells startIndex stopIndex env.finalCell maxOutputSize timeoutSeconds,
     ⟨true, r.2, r.1⟩)

/-- src/extension.ts executeNotebookCells: identical except for the stale
poll loop (`allComplete` initialized once before the loop, never reset). -/
def executeNotebookCellsExt (cells : List NotebookCell) (startIndex stopIndex : Nat)
    (env : ExecEnv) (maxOutputSize timeoutSeconds : Nat) : String × ExecEffects :=
  let codeCells := rangeCodeCells cells startIndex stopIndex
  if codeCells.length = 0 then
    (noCodeCellsReport startIndex stopIndex, ⟨false, 0, false⟩)
  else
    let r := pollStale (watchCheck codeCells env.live) env.fuel
    (execReport r.1 codeCells startIndex stopIndex env.finalCell maxOutputSize timeoutSeconds,
     ⟨true, r.2, r.1⟩)

/-! ## NotebookService (src/notebook.ts)

Each operation receives the (possibly absent) active notebook editor
explicitly.  `ErrorUtils.safeExecute` only logs and re-throws, so it is the
identity here; a thrown RooNotebookError is an `Except.error`.  Operations
that chain an execution after an edit additionally receive `cellsAfterEdit`,
the live cell list re-read after `applyEdit` returned. -/

structure KernelSpec where
  language : String
  display_name : String
  name : String
deriving DecidableEq, Repr

structure NotebookEditor where
  uri : String
  notebookType : String
  isDirty : Bool
  kernelspec : Option KernelSpec
  cells : List NotebookCell
deriving DecidableEq, Repr

/-- JS object `languageCounts` keyed by language, keys in insertion order. -/
def bumpCount (acc : List (String × Nat)) (lang : String) : List (String × Nat) :=
  if acc.any (fun p => p.1 == lang) then
    acc.map (fun p => if p.1 == lang then (p.1, p.2 + 1) else p)
  else
    acc ++ [(lang, 1)]

def languageCounts (cells : List NotebookCell) : List (String × Nat) :=
  cells.foldl
    (fun acc c => if c.kind == NotebookCellKind.code then bumpCount acc c.languageId else acc)
    []

def notebookInfoString (ed : NotebookEditor) : String :=
  let cells := ed.cells
  let markdownCellCount := (cells.filter (fun c => c.kind == NotebookCellKind.markup)).length
  let codeCellCount := (cells.filter (fun c => c.kind == NotebookCellKind.code)).length
  let executedCellsCount :=
    (cells.filter (fun c => c.kind == NotebookCellKind.code && c.executionSummary.isSome)).length
  let counts := languageCounts cells
  "# Notebook Information\n\n" ++
  "## Basic Information\n" ++
  "- **URI**: " ++ ed.uri ++ "\n" ++
  "- **Notebook Type**: " ++ ed.notebookType ++ "\n" ++
  "- **Dirty?**: " ++ toString ed.isDirty ++ "\n" ++
  (match ed.kernelspec with
   | some ks =>
     "- **Kernel Language**: " ++ ks.language ++ "\n" ++
     "- **Kernel**: " ++ ks.display_name ++ " (" ++ ks.name ++ ")\n"
   | none => "") ++
  "\n" ++
  "## Cell Statistics\n" ++
  "- **Total Cells**: " ++ toString cells.length ++ "\n" ++
  "- **Markdown Cells**: " ++ toString markdownCellCount ++ "\n" ++
  "- **Code Cells**: " ++ toString codeCellCount ++ "\n" ++
  "- **Executed Code Cells**: " ++ toString executedCellsCount ++ "\n\n" ++
  (if counts.length > 0 then
    "## Language Distribution\n" ++
      String.join (counts.map (fun p => "- **" ++ p.1 ++ "**: " ++ toString p.2 ++ " cells\n"))
   else "")

/-- getNotebookInfo: a missing active notebook is an expected case for this
tool and yields an informational result, not an error. -/
def getNotebookInfo (activeEditor : Option NotebookEditor) : Except NbError String :=
  match activeEditor with
  | none => .ok "# Notebook Information\n\nNo active notebook found."
  | some ed => .ok (notebookInfoString ed)

def getCells (activeEditor : Option NotebookEditor) (maxOutputSize : Nat) :
    Except NbError String :=
  match activeEditor with
  | none => .error (.noActiveNotebook "getCells")
  | some ed =>
    let cells := ed.cells
    if cells.length = 0 then
      .ok "# Notebook Analysis\n\nThe notebook is empty - it contains no cells."
    else
      .ok ("# Notebook Analysis\n\nNotebook contains " ++ toString cells.length ++
        " cells:\n\n" ++ String.join (cells.map (fun c => showCell c maxOutputSize ++ "---\n\n")))

/-- Cell-data construction in insertCells: kind from `cell_type`, markup
language fixed to "markdown"; a code cell with falsy `language_id` falls back
(when the notebook is non-empty) to the first code cell's language, then to
"python". -/
def insertCellData (existing : List NotebookCell) (cellCount : Nat) (d : CellDef) :
    NotebookCellData :=
  let cellKind :=
    if d.cell_type == some "code" then NotebookCellKind.code else NotebookCellKind.markup
  let lang0 :=
    if cellKind == NotebookCellKind.markup then "markdown" else d.language_id.getD ""
  let lang :=
    if cellKind == NotebookCellKind.code && lang0.isEmpty && cellCount > 0 then
      let fromExisting :=
        match existing.find? (fun c => c.kind == NotebookCellKind.code) with
        | some c => c.languageId
        | none => ""
      if fromExisting.isEmpty then "python" else fromExisting
    else lang0
  ⟨cellKind, d.content, lang, none⟩

/-- Observable outcome of insertCells: the effective insert position, the
cell data handed to `NotebookEdit.insertCells`, and the result message. -/
structure InsertResult where
  position : Int
  cellData : List NotebookCellData
  message : String
deriving DecidableEq, Repr

def insertCells (activeEditor : Option NotebookEditor) (cells : List CellDef)
    (insert_position : Option Int) (noexec : Bool)
    (cellsAfterEdit : List NotebookCell) (env : ExecEnv)
    (maxOutputSize timeoutSeconds : Nat) : Except NbError InsertResult :=
  match activeEditor with
  | none => .error (.noActiveNotebook "insertCells")
  | some ed =>
    if cells.length = 0 then
      .error (.validation "cells array is required and must not be empty")
    else
      let cellCount := ed.cells.length
      let position : Int :=
        match insert_position with
        | some p => min (max 0 p) (cellCount : Int)
        | none => (cellCount : Int)
      let cellDataArray := cells.map (insertCellData ed.cells cellCount)
      let result := "Successfully inserted " ++ toString cellDataArray.length ++
        " new cells at position " ++ toString position ++ "."
      if noexec then .ok ⟨position, cellDataArray, result⟩
      else
        let execRes := executeNotebookCells cellsAfterEdit position.toNat
          (position.toNat + cellDataArray.length) env maxOutputSize timeoutSeconds
        .ok ⟨position, cellDataArray, result ++ "\n\n" ++ execRes.1⟩

/-- Kind reconciliation in replaceCells: explicit (truthy) `cell_type` wins,
otherwise the kind of the positional peer, or of the first replaced cell.
The `none` branch is unreachable when the replaced range is non-empty (the
range validation guarantees stop > start); the JS would throw a TypeError
there. -/
def replaceCellKind (cellsToReplace : List NotebookCell) (iCell : Nat) (d : CellDef) :
    NotebookCellKind :=
  if strTruthy d.cell_type then
    if d.cell_type == some "code" then NotebookCellKind.code else NotebookCellKind.markup
  else
    match cellsToReplace.get? (if iCell < cellsToReplace.length then iCell else 0) with
    | some c => c.kind
    | none => NotebookCellKind.markup

/-- `firstCodeCell?.document.languageId || "python"` -/
def replaceFallbackLanguage (cellsToReplace : List NotebookCell) : String :=
  match cellsToReplace.find? (fun c => c.kind == NotebookCellKind.code) with
  | some c => if c.languageId.isEmpty then "python" else c.languageId
  | none => "python"

/-- Language reconciliation in replaceCells. -/
def replaceCellLanguage (cellsToReplace : List NotebookCell) (iCell : Nat)
    (d : CellDef) (cellKind : NotebookCellKind) : Except NbError String :=
  if cellKind == NotebookCellKind.markup then
    if !(d.language_id == none) && !(d.language_id == some "markdown") then
      .error (.validation "language_id must be 'markdown' for markdown cells")
    else
      .ok "markdown"
  else if strTruthy d.language_id then
    .ok (d.language_id.getD "")
  else
    match cellsToReplace.get? iCell with
    | some peer =>
      if peer.kind == NotebookCellKind.code then .ok peer.languageId
      else .ok (replaceFallbackLanguage cellsToReplace)
    | none => .ok (replaceFallbackLanguage cellsToReplace)

def replaceCellData (cellsToReplace : List NotebookCell) (iCell : Nat) (d : CellDef) :
    Except NbError NotebookCellData :=
  let cellKind := replaceCellKind cellsToReplace iCell d
  match replaceCellLanguage cellsToReplace iCell d cellKind with
  | .error e => .error e
  | .ok languageId =>
    let cellData : NotebookCellData := ⟨cellKind, d.content, languageId, none⟩
    match cellsToReplace.get? iCell with
    | some peer =>
      if peer.kind == cellData.kind then .ok { cellData with metadata := peer.metadata }
      else .ok cellData
    | none => .ok cellData

def buildReplaceCellData (cellsToReplace : List NotebookCell) (cells : List CellDef) :
    Except NbError (List NotebookCellData) :=
  cells.enum.mapM (fun p => replaceCellData cellsToReplace p.1 p.2)

structure ReplaceResult where
  startIndex : Nat
  stopIndex : Nat
  cellData : List NotebookCellData
  message : String
deriving DecidableEq, Repr

def replaceCells (activeEditor : Option NotebookEditor)
    (validateIndicesAndCells : Nat → Except NbError (Nat × Nat × List CellDef))
    (noexec : Bool) (cellsAfterEdit : List NotebookCell) (env : ExecEnv)
    (maxOutputSize timeoutSeconds : Nat) : Except NbError ReplaceResult :=
  match activeEditor with
  | none => .error (.noActiveNotebook "replaceCells")
  | some ed => do
    let existingCells := ed.cells
    let (startIndex, stopIndex, cells) ← validateIndicesAndCells existingCells.length
    let cellsToReplace := (existingCells.drop startIndex).take (stopIndex - startIndex)
    let cellDataArray ← buildReplaceCellData cellsToReplace cells
    let result := "Successfully replaced " ++ toString (stopIndex - startIndex) ++
      " cells with " ++ toString cellDataArray.length ++ " new cells."
    if noexec then
      .ok ⟨startIndex, stopIndex, cellDataArray, result⟩
    else
      let execRes := executeNotebookCells cellsAfterEdit startIndex
        (startIndex + cellDataArray.length) env maxOutputSize timeoutSeconds
      .ok ⟨startIndex, stopIndex, cellDataArray, result ++ "\n\n" ++ execRes.1⟩

/-- modifyCellContent delegates to replaceCells with the single-cell range
`[i, i+1)` and a CellDef carrying only the content (no cell_type, no
language_id); the source captures the validated index from inside the
callback, recovered here as the startIndex replaceCells used. -/
def modifyCellContent (activeEditor : Option NotebookEditor)
    (validateCellIndex : Nat → Except NbError Nat) (content : String)
    (noexec : Bool) (cellsAfterEdit : List NotebookCell) (env : ExecEnv)
    (maxOutputSize timeoutSeconds : Nat) : Except NbError String :=
  match activeEditor with
  | none => .error (.noActiveNotebook "modifyCellContent")
  | some ed => do
    let r ← replaceCells (some ed)
      (fun cellCount => do
        let cellIndex ← validateCellIndex cellCount
        .ok (cellIndex, cellIndex + 1, [⟨content, none, none⟩]))
      true cellsAfterEdit env maxOutputSize timeoutSeconds
    let cellIndex := r.startIndex
    let result := "Successfully modified cell at index " ++ toString cellIndex ++
      " with new content."
    if noexec then .ok result
    else
      let execRes := executeNotebookCells cellsAfterEdit cellIndex (cellIndex + 1)
        env maxOutputSize timeoutSeconds
      .ok (result ++ "\n\n" ++ execRes.1)

def executeCells (activeEditor : Option NotebookEditor)
    (validateIndices : Nat → Except NbError (Nat × Nat)) (env : ExecEnv)
    (maxOutputSize timeoutSeconds : Nat) : Except NbError (String × ExecEffects) :=
  match activeEditor with
  | none => .error (.noActiveNotebook "executeCells")
  | some ed => do
    let (startIndex, stopIndex) ← validateIndices ed.cells.length
    .ok (executeNotebookCells ed.cells startIndex stopIndex env maxOutputSize timeoutSeconds)

def deleteCells (activeEditor : Option NotebookEditor)
    (validateIndices : Nat → Except NbError (Nat × Nat)) : Except NbError String :=
  match activeEditor with
  | none => .error (.noActiveNotebook "deleteCells")
  | some ed => do
    let (startIndex, stopIndex) ← validateIndices ed.cells.length
    let deleteCount := stopIndex - startIndex
    .ok ("Successfully deleted " ++ toString deleteCount ++ " cell" ++
      (if deleteCount ≠ 1 then "s" else "") ++ " from index " ++ toString startIndex ++
      " to " ++ toString ((stopIndex : Int) - 1) ++ ".")

def saveNotebook (activeEditor : Option NotebookEditor) : Except NbError String :=
  match activeEditor with
  | none => .error (.noActiveNotebook "saveNotebook")
  | some ed => .ok ("Successfully saved notebook: " ++ ed.uri)

def restartKernel (activeEditor : Option NotebookEditor) : Except NbError String :=
  match activeEditor with
  | none => .error (.noActiveNotebook "restartKernel")
  | some ed => .ok ("Successfully restarted kernel for notebook: " ++ ed.uri)

def interruptKernel (activeEditor : Option NotebookEditor) : Except NbError String :=
  match activeEditor with
  | none => .error (.noActiveNotebook "interruptKernel")
  | some ed => .ok ("Successfully interrupted kernel execution for notebook: " ++ ed.uri)

/-! ## Bounded Body Reader (src/mcp-server.ts, parseRequestBody)

The promise executor installs handlers for the stream events and settles at
most once through safeResolve/safeReject, which are guarded by the `resolved`
flag (the `cleanup()` listener detach is subsumed by that guard).  The model
is a state machine folded over the delivered event sequence; `settlements`
records every actual resolution/rejection of the promise. -/

inductive BodyEvent where
  /-- a 'data' event; the chunk is modelled by its decoded UTF-8 text -/
  | data (chunk : String)
  /-- the 'end' event -/
  | endOfStream
  /-- an 'error' event -/
  | streamError
  /-- the 'close' event -/
  | close
deriving DecidableEq, Repr

inductive BodySettlement where
  | resolved (body : String)
  | rejected (message : String)
deriving DecidableEq, Repr

structure BodyReaderState where
  body : String
  bodySize : Nat
  sizeExceeded : Bool
  resolved : Bool
  settlements : List BodySettlement
deriving DecidableEq, Repr

def tooLargeMessage (bodySize maxSize : Nat) : String :=
  "Request too large: " ++ toString bodySize ++ " bytes (max: " ++ toString maxSize ++ ")"

/-- Total byte count of a chunk sequence (chunk.length on Buffers). -/
def sumBytes (chunks : List String) : Nat :=
  (chunks.map String.utf8ByteSize).sum

def safeResolve (st : BodyReaderState) (value : String) : BodyReaderState :=
  if !st.resolved then
    { st with resolved := true, settlements := st.settlements ++ [.resolved value] }
  else st

def safeReject (st : BodyReaderState) (message : String) : BodyReaderState :=
  if !st.resolved then
    { st with resolved := true, settlements := st.settlements ++ [.rejected message] }
  else st

def parseRequestBodyStep (maxSize : Nat) (st : BodyReaderState) (ev : BodyEvent) :
    BodyReaderState :=
  match ev with
  | .streamError => safeReject st "Request stream error"
  | .data chunk =>
    if st.resolved then st
    else
      let bodySize := st.bodySize + chunk.utf8ByteSize
      if bodySize > maxSize then
        if !st.sizeExceeded then
          safeReject { st with bodySize := bodySize, sizeExceeded := true }
            (tooLargeMessage bodySize maxSize)
        else
          { st with bodySize := bodySize }
      else
        { st with bodySize := bodySize, body := st.body ++ chunk }
  | .endOfStream =>
    if !st.sizeExceeded && !st.resolved then safeResolve st st.body else st
  | .close =>
    if !st.resolved then safeReject st "Request closed by client" else st

def initialBodyReaderState : BodyReaderState := ⟨"", 0, false, false, []⟩

def parseRequestBody (maxSize : Nat) (events : List BodyEvent) : BodyReaderState :=
  events.foldl (parseRequestBodyStep maxSize) initialBodyReaderState

/-- Invariant of the body-reader state machine: a size-exceeded state is
already settled, the resolved flag tracks exactly whether a settlement
happened, and at most one settlement ever happens. -/
def ReaderInv (st : BodyReaderState) : Prop :=
  (st.sizeExceeded = true → st.resolved = true) ∧
  (st.resolved = true ↔ st.settlements ≠ []) ∧
  st.settlements.length ≤ 1

/-! ## Concrete fixtures used by counterexamples and witnesses -/

/-- A one-cell notebook whose only code cell has non-empty content and no
prior execution. -/
def cexCell : NotebookCell :=
  ⟨0, NotebookCellKind.code, "python", "x", none, [], none⟩

/-- Live states: at the first poll the marker is still unchanged; from the
second poll on it has advanced to 1. -/
def cexLive (i : Nat) (_idx : Nat) : NotebookCell :=
  { cexCell with executionSummary := if i = 0 then none else some ⟨some 1⟩ }

/-- Deadline budget of two poll iterations. -/
def cexEnv : ExecEnv := ⟨cexLive, fun _ => cexCell, 2⟩

/-- An otherwise unused placeholder cell. -/
def dummyCell : NotebookCell :=
  ⟨0, NotebookCellKind.markup, "markdown", "", none, [], none⟩

/-- An execution environment that never reports a changed marker. -/
def stallEnv (fuel : Nat) : ExecEnv := ⟨fun _ _ => cexCell, fun _ => cexCell, fuel⟩

/-- A code cell whose content is whitespace only. -/
def blankCodeCell : NotebookCell :=
  ⟨0, NotebookCellKind.code, "python", "  ", none, [], none⟩

/-- An environment whose live reads always return the blank code cell. -/
def blankEnv (fuel : Nat) : ExecEnv :=
  ⟨fun _ _ => blankCodeCell, fun _ => blankCodeCell, fuel⟩

/-- A three-cell markup-only notebook. -/
def wEditor3 : NotebookEditor :=
  ⟨"file:///nb.ipynb", "jupyter-notebook", false, none,
   [⟨0, NotebookCellKind.markup, "markdown", "a", none, [], none⟩,
    ⟨1, NotebookCellKind.markup, "markdown", "b", none, [], none⟩,
    ⟨2, NotebookCellKind.markup, "markdown", "c", none, [], none⟩]⟩

/-- A one-code-cell notebook (non-empty content). -/
def wEditorCode : NotebookEditor :=
  ⟨"file:///nb.ipynb", "jupyter-notebook", false, none, [cexCell]⟩

/-- A one-code-cell notebook whose cell is blank. -/
def wEditorBlank : NotebookEditor :=
  ⟨"file:///nb.ipynb", "jupyter-notebook", false, none, [blankCodeCell]⟩

/-- A code cell in Julia, as the positional peer of a replacement. -/
def wJuliaCell : NotebookCell :=
  ⟨0, NotebookCellKind.code, "julia", "x", none, [], none⟩

end RooNB

namespace RooNB

/-! ## Poll-loop lemmas shared by several claims -/

theorem pollFreshAux_all_false (check : Nat → Bool) :
    ∀ (fuel i : Nat) (b : Bool), (∀ j, j < fuel → check (i + j) = false) →
      pollFreshAux check b i fuel = (if fuel = 0 then b else false, i + fuel) := by
  intro fuel
  induction fuel with
  | zero => intro i b _; simp [pollFreshAux]
  | succ f ih =>
    intro i b h
    have h0 : check i = false := by simpa using h 0 (Nat.succ_pos f)
    have hrec := ih (i + 1) false (fun j hj => by
      have h2 := h (j + 1) (by omega)
      have e : i + (j + 1) = i + 1 + j := by omega
      rwa [e] at h2)
    simp only [pollFreshAux, h0, if_false, Bool.false_eq_true]
    rw [hrec]
    have : i + 1 + f = i + (f + 1) := by omega
    simp [this]

theorem pollFreshAux_fst_true_iff (check : Nat → Bool) :
    ∀ (fuel i : Nat) (b : Bool),
      (pollFreshAux check b i fuel).1 = true ↔
        (fuel = 0 ∧ b = true) ∨ ∃ j, j < fuel ∧ check (i + j) = true := by
  intro fuel
  induction fuel with
  | zero => intro i b; simp [pollFreshAux]
  | succ f ih =>
    intro i b
    by_cases hc : check i = true
    · simp only [pollFreshAux, hc, if_true]
      constructor
      · intro _; exact Or.inr ⟨0, Nat.succ_pos f, by simpa using hc⟩
      · intro _; trivial
    · have hc' : check i = false := by simpa using hc
      simp only [pollFreshAux, hc', if_false, Bool.false_eq_true]
      rw [ih (i + 1) false]
      constructor
      · rintro (⟨_, h⟩ | ⟨j, hj, hcj⟩)
        · exact absurd h (by simp)
        · refine Or.inr ⟨j + 1, by omega, ?_⟩
          have e : i + (j + 1) = i + 1 + j := by omega
          rwa [e]
      · rintro (⟨h, _⟩ | ⟨j, hj, hcj⟩)
        · omega
        · match j, hj, hcj with
          | 0, _, hcj => exact absurd hcj (by simpa using hc)
          | j + 1, hj, hcj =>
            refine Or.inr ⟨j, by omega, ?_⟩
            have e : i + 1 + j = i + (j + 1) := by omega
            rwa [e]

theorem pollFresh_true_iff (check : Nat → Bool) (fuel : Nat) :
    (pollFresh check fuel).1 = true ↔ fuel = 0 ∨ ∃ i, i < fuel ∧ check i = true := by
  unfold pollFresh
  rw [pollFreshAux_fst_true_iff]
  simp

theorem pollFresh_all_false (check : Nat → Bool) (fuel : Nat) (hf : 0 < fuel)
    (h : ∀ i, i < fuel → check i = false) : pollFresh check fuel = (false, fuel) := by
  unfold pollFresh
  rw [pollFreshAux_all_false check fuel 0 true (fun j hj => by simpa using h j hj)]
  simp [Nat.pos_iff_ne_zero.mp hf]

theorem pollFresh_first_true (check : Nat → Bool) (fuel : Nat) (hf : 0 < fuel)
    (h : check 0 = true) : pollFresh check fuel = (true, 1) := by
  cases fuel with
  | zero => omega
  | succ f => simp [pollFresh, pollFreshAux, h]

theorem pollStaleAux_false (check : Nat → Bool) :
    ∀ (fuel i : Nat), pollStaleAux check false i fuel = (false, i + fuel) := by
  intro fuel
  induction fuel with
  | zero => intro i; simp [pollStaleAux]
  | succ f ih =>
    intro i
    simp only [pollStaleAux, Bool.false_and, if_false, Bool.false_eq_true]
    rw [ih (i + 1)]
    have : i + 1 + f = i + (f + 1) := by omega
    simp [this]

theorem pollStale_eq (check : Nat → Bool) (fuel : Nat) :
    pollStale check fuel =
      if fuel = 0 then (true, 0)
      else if check 0 then (true, 1) else (false, fuel) := by
  cases fuel with
  | zero => simp [pollStale, pollStaleAux]
  | succ f =>
    by_cases hc : check 0 = true
    · simp [pollStale, pollStaleAux, hc]
    · have hc' : check 0 = false := by simpa using hc
      simp only [pollStale, pollStaleAux, Bool.true_and, hc', if_false,
        Nat.succ_ne_zero, Bool.false_eq_true]
      rw [pollStaleAux_false]
      simp [Nat.add_comm]

end RooNB

namespace RooNB

/-! ## Claim C1: range validation -/

/-- Claim C1: for every range-accepting operation (replace_notebook_cells,
execute_notebook_cells, delete_notebook_cells) the shared validation closure
accepts integer indices start/stop against the live cell count n exactly when
0 <= start < stop <= n, and any violation yields a range-invalid error
carrying the attempted start, stop and the actual n; in particular an empty
range (stop = start) is rejected for every n.  The two source checks
(start < 0 || start >= n, then stop <= start || stop > n) both produce the
identical error object, so the stated check order is preserved and
observationally irrelevant. -/
theorem range_validation_accepts_iff (toolName : String) (s e : Int) (n : Nat) :
    validateRangeArgs toolName s e n =
      (if 0 ≤ s ∧ s < e ∧ e ≤ (n : Int) then
        .ok (s.toNat, e.toNat)
      else
        .error (.rangeOutOfBounds ⟨s, e, n, toolName⟩)) := by
  unfold validateRangeArgs
  split_ifs with h1 h2 h3 h4 <;> simp_all <;> omega

/-! ## Claim C2: the two completion-polling implementations differ -/

/-- Claim C2 counterexample: with one watched code cell whose marker is
unchanged at the first poll and changed at the second, and a deadline budget
of two polls, the notebook-service implementation (fresh recompute) reports
completion while the extension.ts implementation (no per-iteration reset)
reports non-completion — so the two are not observationally equivalent and
the did-not-complete warning appears in exactly one of the two reports. -/
theorem execute_polling_variants_differ :
    (executeNotebookCells [cexCell] 0 1 cexEnv 2000 30).2.completed = true ∧
    (executeNotebookCellsExt [cexCell] 0 1 cexEnv 2000 30).2.completed = false ∧
    (executeNotebookCells [cexCell] 0 1 cexEnv 2000 30).1 ≠
      (executeNotebookCellsExt [cexCell] 0 1 cexEnv 2000 30).1 := by
  refine ⟨rfl, rfl, ?_⟩
  decide

/-- Claim C2 amended: the two polling implementations agree (same completion
verdict, hence same presence of the did-not-complete warning) exactly when
the deadline admits no poll at all, or the first poll already observes every
watched cell complete, or no poll within the deadline ever does; when
completion is first observed at a later poll, the fresh-recompute variant
completes while the extension.ts variant runs to the deadline and warns. -/
theorem poll_variants_agree_iff (check : Nat → Bool) (fuel : Nat) :
    ((pollFresh check fuel).1 = (pollStale check fuel).1) ↔
      (fuel = 0 ∨ check 0 = true ∨ ∀ i, i < fuel → check i = false) := by
  rcases Nat.eq_zero_or_pos fuel with hf | hf
  · subst hf
    simp [pollFresh, pollStale, pollFreshAux, pollStaleAux]
  · have hf' : fuel ≠ 0 := Nat.pos_iff_ne_zero.mp hf
    have hst := pollStale_eq check fuel
    by_cases hc : check 0 = true
    · rw [pollFresh_first_true check fuel hf hc, hst]
      simp [hf', hc]
    · have hc' : check 0 = false := by simpa using hc
      have hstale : (pollStale check fuel).1 = false := by
        rw [hst]
        simp [hf', hc']
      rw [hstale]
      by_cases he : ∃ i, i < fuel ∧ check i = true
      · have hv : (pollFresh check fuel).1 = true :=
          (pollFresh_true_iff check fuel).mpr (Or.inr he)
        rw [hv]
        constructor
        · intro habs; exact Bool.noConfusion habs
        · rintro (h | h | h)
          · exact absurd h hf'
          · rw [h] at hc'; exact Bool.noConfusion hc'
          · obtain ⟨i, hi, hci⟩ := he
            rw [h i hi] at hci
            exact Bool.noConfusion hci
      · have hall : ∀ i, i < fuel → check i = false := by
          intro i hi
          by_contra hne
          exact he ⟨i, hi, by simpa using hne⟩
        rw [pollFresh_all_false check fuel hf hall]
        constructor
        · intro _; exact Or.inr (Or.inr hall)
        · intro _; rfl

/-! ## Claim C5: insert position clamping -/

/-- Claim C5: for every insert_notebook_cells call with a numeric
insert_position and current cell count n, the effective insertion position is
clamp(insert_position, 0, n) — positions above n silently become n and
negative positions 0, never a rejection — and an omitted position appends at
n. -/
theorem insert_position_clamped (ed : NotebookEditor) (cds : List CellDef)
    (pos? : Option Int) (noexec : Bool) (after : List NotebookCell) (env : ExecEnv)
    (m t : Nat) (h : cds.length ≠ 0) :
    ∃ r, insertCells (some ed) cds pos? noexec after env m t = .ok r ∧
      r.position =
        (match pos? with
         | some p =>
           if p < 0 then 0
           else if (ed.cells.length : Int) < p then (ed.cells.length : Int) else p
         | none => (ed.cells.length : Int)) := by
  unfold insertCells
  dsimp only
  rw [if_neg h]
  have hpos : (match pos? with
      | some p => min (max 0 p) (ed.cells.length : Int)
      | none => (ed.cells.length : Int)) =
      (match pos? with
       | some p =>
         if p < 0 then 0
         else if (ed.cells.length : Int) < p then (ed.cells.length : Int) else p
       | none => (ed.cells.length : Int)) := by
    rcases pos? with _ | p
    · rfl
    · simp only [Int.min_def, Int.max_def]
      split_ifs <;> omega
  cases noexec
  · exact ⟨_, rfl, hpos⟩
  · exact ⟨_, rfl, hpos⟩

/-- Claim C5 witness: a notebook with three cells and insert_position 10
clamps to 3 and is accepted. -/
theorem insert_position_clamped_witness :
    ∃ r, insertCells (some wEditor3) [⟨"x", some "code", none⟩] (some 10) true []
        (stallEnv 0) 2000 30 = .ok r ∧ r.position = 3 := by
  obtain ⟨r, hr, hp⟩ :=
    insert_position_clamped wEditor3 [⟨"x", some "code", none⟩] (some 10) true []
      (stallEnv 0) 2000 30 (by decide)
  exact ⟨r, hr, hp.trans (by decide)⟩


/-! ## Helper lemmas for the execute path -/

theorem executeCells_ok (ed : NotebookEditor)
    (validate : Nat → Except NbError (Nat × Nat)) (env : ExecEnv)
    (m t start stop : Nat) (hval : validate ed.cells.length = .ok (start, stop)) :
    executeCells (some ed) validate env m t =
      .ok (executeNotebookCells ed.cells start stop env m t) := by
  unfold executeCells
  dsimp only
  rw [hval]
  rfl

theorem execReport_true_prefix (cs : List NotebookCell) (a b : Nat)
    (f : Nat → NotebookCell) (m t : Nat) :
    ∃ rest, execReport true cs a b f m t =
      "# Cell Execution Results\n\nExecuted " ++ rest := by
  refine ⟨toString cs.length ++ (" code cells in range " ++ (toString a ++ ("-" ++
    (toString ((b : Int) - 1) ++ (".\n\n" ++
      String.join (cs.map (fun c => showCell (f c.index) m ++ "---\n\n"))))))), ?_⟩
  unfold execReport
  rw [show (if !(true : Bool) then execWarning t else "") = "" from rfl]
  rw [show ("# Cell Execution Results\n\n" ++ "" ++ "Executed ") =
    "# Cell Execution Results\n\nExecuted " from by decide]
  simp only [String.append_assoc]

theorem execReport_false_prefix (cs : List NotebookCell) (a b : Nat)
    (f : Nat → NotebookCell) (m t : Nat) :
    ∃ rest, execReport false cs a b f m t =
      "# Cell Execution Results\n\n" ++ execWarning t ++ rest := by
  refine ⟨"Executed " ++ (toString cs.length ++ (" code cells in range " ++ (toString a ++
    ("-" ++ (toString ((b : Int) - 1) ++ (".\n\n" ++
      String.join (cs.map (fun c => showCell (f c.index) m ++ "---\n\n")))))))), ?_⟩
  unfold execReport
  rw [show (if !(false : Bool) then execWarning t else "") = execWarning t from rfl]
  simp only [String.append_assoc]

/-! ## Claim C9: zero code cells in range -/

/-- Claim C9: for every execution target range containing zero code cells
(every cell in the range is markup), the execute path returns the "no code
cells" report at once: the kernel execute command is never issued, no poll
iteration runs and no completion is recorded, so document and kernel state
are untouched (the early return precedes the snapshot, the execute command
and the loop in the source). -/
theorem no_code_cells_skips_execution (ed : NotebookEditor)
    (validate : Nat → Except NbError (Nat × Nat)) (env : ExecEnv)
    (m t start stop : Nat)
    (hval : validate ed.cells.length = .ok (start, stop))
    (hnone : ∀ c ∈ (ed.cells.drop start).take (stop - start),
      c.kind = NotebookCellKind.markup) :
    executeCells (some ed) validate env m t =
      .ok ("# Cell Execution\n\nNo code cells found in the specified range (" ++
            toString start ++ "-" ++ toString ((stop : Int) - 1) ++ ").",
           ⟨false, 0, false⟩) := by
  rw [executeCells_ok ed validate env m t start stop hval]
  unfold executeNotebookCells
  have hz : (rangeCodeCells ed.cells start stop).length = 0 := by
    unfold rangeCodeCells
    rw [List.length_eq_zero, List.filter_eq_nil_iff]
    intro c hc
    have hk := hnone c hc
    simp [hk]
  dsimp only
  rw [if_pos hz]
  rfl

/-- Claim C9 witness: executing range [0, 2) of a three-cell markup-only
notebook yields the no-code-cells report with no kernel command and no
polling. -/
theorem no_code_cells_skips_execution_witness :
    executeCells (some wEditor3)
        (fun n => validateRangeArgs "execute_notebook_cells" 0 2 n)
        (stallEnv 2) 2000 30 =
      .ok ("# Cell Execution\n\nNo code cells found in the specified range (0-1).",
           ⟨false, 0, false⟩) := by
  rw [no_code_cells_skips_execution wEditor3
    (fun n => validateRangeArgs "execute_notebook_cells" 0 2 n)
    (stallEnv 2) 2000 30 0 2 rfl (by decide)]
  exact congrArg Except.ok (by decide)

/-! ## Claim C3: blank code cells complete on the first poll -/

/-- Claim C3: when the target range holds at least one code cell and every
code cell in it shows whitespace-only content at the first poll, the watch
set exempts them all, so the polling loop completes on its very first
iteration (pollIterations = 1, independent of the deadline budget) and the
report carries no timeout warning — the header is immediately followed by
the "Executed ..." line. -/
theorem blank_code_cells_complete_immediately (ed : NotebookEditor)
    (validate : Nat → Except NbError (Nat × Nat)) (env : ExecEnv)
    (m t start stop : Nat)
    (hval : validate ed.cells.length = .ok (start, stop))
    (hfuel : 0 < env.fuel)
    (hne : (rangeCodeCells ed.cells start stop).length ≠ 0)
    (hempty : ∀ c ∈ rangeCodeCells ed.cells start stop,
      jsTrim (env.live 0 c.index).content = "") :
    ∃ rest,
      executeCells (some ed) validate env m t =
        .ok ("# Cell Execution Results\n\nExecuted " ++ rest, ⟨true, 1, true⟩) := by
  rw [executeCells_ok ed validate env m t start stop hval]
  unfold executeNotebookCells
  dsimp only
  rw [if_neg hne]
  have hcheck : watchCheck (rangeCodeCells ed.cells start stop) env.live 0 = true := by
    unfold watchCheck
    rw [List.all_eq_true]
    intro c hc
    have h1 := hempty c hc
    simp [h1]
  rw [pollFresh_first_true _ env.fuel hfuel hcheck]
  obtain ⟨rest, hr⟩ :=
    execReport_true_prefix (rangeCodeCells ed.cells start stop) start stop env.finalCell m t
  exact ⟨rest, by rw [hr]⟩

/-- Claim C3 witness: one blank code cell, deadline budget of two polls:
the call completes after a single poll iteration with no warning. -/
theorem blank_code_cells_complete_immediately_witness :
    ∃ rest,
      executeCells (some wEditorBlank)
          (fun n => validateRangeArgs "execute_notebook_cells" 0 1 n)
          (blankEnv 2) 2000 30 =
        .ok ("# Cell Execution Results\n\nExecuted " ++ rest, ⟨true, 1, true⟩) :=
  blank_code_cells_complete_immediately wEditorBlank
    (fun n => validateRangeArgs "execute_notebook_cells" 0 1 n)
    (blankEnv 2) 2000 30 0 1 rfl (by decide) (by decide) (by decide)

/-! ## Claim C4: timeout is not an error -/

/-- Claim C4: when every poll within the deadline still shows some watched
cell with an unchanged marker, the execute operation nevertheless returns
successfully (an .ok result, never an error): the report is assembled from
current state and prefixed with the explicit did-not-complete warning, and
the loop has consumed the whole deadline budget. -/
theorem timeout_returns_success_with_warning (ed : NotebookEditor)
    (validate : Nat → Except NbError (Nat × Nat)) (env : ExecEnv)
    (m t start stop : Nat)
    (hval : validate ed.cells.length = .ok (start, stop))
    (hfuel : 0 < env.fuel)
    (hne : (rangeCodeCells ed.cells start stop).length ≠ 0)
    (hstall : ∀ i, i < env.fuel →
      watchCheck (rangeCodeCells ed.cells start stop) env.live i = false) :
    ∃ rest,
      executeCells (some ed) validate env m t =
        .ok ("# Cell Execution Results\n\n" ++ execWarning t ++ rest,
             ⟨true, env.fuel, false⟩) := by
  rw [executeCells_ok ed validate env m t start stop hval]
  unfold executeNotebookCells
  dsimp only
  rw [if_neg hne]
  rw [pollFresh_all_false _ env.fuel hfuel hstall]
  obtain ⟨rest, hr⟩ :=
    execReport_false_prefix (rangeCodeCells ed.cells start stop) start stop env.finalCell m t
  exact ⟨rest, by rw [hr]⟩

/-- Claim C4 witness: one non-empty code cell whose marker never changes,
deadline budget of two polls: the call still returns .ok, with the warning
prefix and the full budget consumed. -/
theorem timeout_returns_success_with_warning_witness :
    ∃ rest,
      executeCells (some wEditorCode)
          (fun n => validateRangeArgs "execute_notebook_cells" 0 1 n)
          (stallEnv 2) 2000 30 =
        .ok ("# Cell Execution Results\n\n" ++ execWarning 30 ++ rest,
             ⟨true, 2, false⟩) :=
  timeout_returns_success_with_warning wEditorCode
    (fun n => validateRangeArgs "execute_notebook_cells" 0 1 n)
    (stallEnv 2) 2000 30 0 1 rfl (by decide) (by decide) (by decide)

/-! ## Claim C6: three-tier language fallback in replace/modify -/

/-- Claim C6: in replaceCells (and in modifyCellContent, which routes through
replaceCells with a CellDef whose cell_type and language_id are both absent),
a new code-kind cell that omits language_id receives its language by the
three-tier fallback: the language of the positional peer when that position
exists in the replaced range and holds a code cell; otherwise the language of
the first code cell of the replaced range (when it has a language tag);
otherwise the fixed default "python". -/
theorem replace_language_three_tier (toReplace : List NotebookCell) (i : Nat)
    (d : CellDef) (hid : d.language_id = none) :
    (∀ peer, toReplace.get? i = some peer → peer.kind = NotebookCellKind.code →
        replaceCellLanguage toReplace i d NotebookCellKind.code = .ok peer.languageId)
  ∧ ((∀ peer, toReplace.get? i = some peer → peer.kind ≠ NotebookCellKind.code) →
      ∀ c, toReplace.find? (fun x => x.kind == NotebookCellKind.code) = some c →
        c.languageId ≠ "" →
        replaceCellLanguage toReplace i d NotebookCellKind.code = .ok c.languageId)
  ∧ (toReplace.find? (fun x => x.kind == NotebookCellKind.code) = none →
      replaceCellLanguage toReplace i d NotebookCellKind.code = .ok "python") := by
  refine ⟨?_, ?_, ?_⟩
  · intro peer hpeer hk
    rw [List.get?_eq_getElem?] at hpeer
    simp [replaceCellLanguage, hid, strTruthy, hpeer, hk]
  · intro hno c hc hlang
    have hempty : c.languageId.isEmpty = false := by
      rw [Bool.eq_false_iff]
      intro hx
      exact hlang ((String.isEmpty_iff c.languageId).mp hx)
    cases hgi : toReplace.get? i with
    | none =>
      rw [List.get?_eq_getElem?] at hgi
      simp [replaceCellLanguage, hid, strTruthy, hgi, replaceFallbackLanguage, hc, hempty]
    | some peer =>
      have hk := hno peer hgi
      rw [List.get?_eq_getElem?] at hgi
      simp [replaceCellLanguage, hid, strTruthy, hgi, hk, replaceFallbackLanguage, hc, hempty]
  · intro hnone
    cases hgi : toReplace.get? i with
    | none =>
      rw [List.get?_eq_getElem?] at hgi
      simp [replaceCellLanguage, hid, strTruthy, hgi, replaceFallbackLanguage, hnone]
    | some peer =>
      have hmem : peer ∈ toReplace := List.get?_mem hgi
      have hk : ¬(peer.kind == NotebookCellKind.code) = true :=
        List.find?_eq_none.mp hnone peer hmem
      have hk' : peer.kind ≠ NotebookCellKind.code := by simpa using hk
      rw [List.get?_eq_getElem?] at hgi
      simp [replaceCellLanguage, hid, strTruthy, hgi, hk', replaceFallbackLanguage, hnone]

/-- Claim C6 witness: replacing a Julia code cell with a new code cell that
omits language_id inherits "julia" from the positional peer. -/
theorem replace_language_three_tier_witness :
    replaceCellLanguage [wJuliaCell] 0 ⟨"y", some "code", none⟩ NotebookCellKind.code =
      .ok "julia" := by
  have h := (replace_language_three_tier [wJuliaCell] 0 ⟨"y", some "code", none⟩ rfl).1
    wJuliaCell rfl rfl
  exact h

/-! ## Claim C10: behavior with no active notebook editor -/

/-- Claim C10: with no active notebook editor, get_notebook_info alone
succeeds, returning the informational "No active notebook found" report as a
non-error result, while every other operation — get-cells, insert, replace,
modify, execute, delete, save, restart, interrupt — fails up front with a
no-active-notebook error naming the operation, before touching any document
or kernel state (the guard is the first statement of each handler). -/
theorem no_active_notebook_behavior (m t : Nat) (cds : List CellDef)
    (posArg : Option Int) (nx : Bool) (after : List NotebookCell) (env : ExecEnv)
    (v2 : Nat → Except NbError (Nat × Nat × List CellDef))
    (v1 : Nat → Except NbError Nat)
    (vr : Nat → Except NbError (Nat × Nat)) (content : String) :
    getNotebookInfo none = .ok "# Notebook Information\n\nNo active notebook found."
  ∧ getCells none m = .error (.noActiveNotebook "getCells")
  ∧ insertCells none cds posArg nx after env m t = .error (.noActiveNotebook "insertCells")
  ∧ replaceCells none v2 nx after env m t = .error (.noActiveNotebook "replaceCells")
  ∧ modifyCellContent none v1 content nx after env m t =
      .error (.noActiveNotebook "modifyCellContent")
  ∧ executeCells none vr env m t = .error (.noActiveNotebook "executeCells")
  ∧ deleteCells none vr = .error (.noActiveNotebook "deleteCells")
  ∧ saveNotebook none = .error (.noActiveNotebook "saveNotebook")
  ∧ restartKernel none = .error (.noActiveNotebook "restartKernel")
  ∧ interruptKernel none = .error (.noActiveNotebook "interruptKernel") :=
  ⟨rfl, rfl, rfl, rfl, rfl, rfl, rfl, rfl, rfl, rfl⟩

/-! ## Body-reader lemmas -/

theorem sumBytes_nil : sumBytes [] = 0 := rfl

theorem sumBytes_cons (c : String) (cs : List String) :
    sumBytes (c :: cs) = c.utf8ByteSize + sumBytes cs := by
  simp [sumBytes]

theorem stringJoin_nil : String.join ([] : List String) = "" := rfl

theorem stringFoldl_append (cs : List String) :
    ∀ a : String, cs.foldl (· ++ ·) a = a ++ cs.foldl (· ++ ·) "" := by
  induction cs with
  | nil => intro a; exact (String.append_empty a).symm
  | cons c cs ih =>
    intro a
    simp only [List.foldl_cons]
    rw [ih (a ++ c), ih ("" ++ c), String.empty_append, String.append_assoc]

theorem stringJoin_cons (c : String) (cs : List String) :
    String.join (c :: cs) = c ++ String.join cs := by
  show (c :: cs).foldl (· ++ ·) "" = c ++ cs.foldl (· ++ ·) ""
  simp only [List.foldl_cons]
  rw [stringFoldl_append cs ("" ++ c), String.empty_append]

/-- Once settled, every further event leaves the state untouched: the data
handler early-returns, end requires not-resolved, and safeResolve/safeReject
are guarded by the resolved flag (the detached listeners). -/
theorem bodyStep_resolved (maxSize : Nat) (st : BodyReaderState) (ev : BodyEvent)
    (h : st.resolved = true) : parseRequestBodyStep maxSize st ev = st := by
  cases ev <;> simp [parseRequestBodyStep, safeReject, safeResolve, h]

theorem bodyFoldl_resolved (maxSize : Nat) :
    ∀ (events : List BodyEvent) (st : BodyReaderState), st.resolved = true →
      List.foldl (parseRequestBodyStep maxSize) st events = st := by
  intro events
  induction events with
  | nil => intro st _; rfl
  | cons e es ih =>
    intro st h
    simp only [List.foldl_cons]
    rw [bodyStep_resolved maxSize st e h]
    exact ih st h

theorem bodyData_ok (maxSize : Nat) :
    ∀ (chunks : List String) (st : BodyReaderState),
      st.resolved = false → st.sizeExceeded = false →
      st.bodySize + sumBytes chunks ≤ maxSize →
      List.foldl (parseRequestBodyStep maxSize) st (chunks.map BodyEvent.data) =
        { st with body := st.body ++ String.join chunks,
                  bodySize := st.bodySize + sumBytes chunks } := by
  intro chunks
  induction chunks with
  | nil =>
    intro st _ _ _
    simp [stringJoin_nil, String.append_empty, sumBytes_nil]
  | cons c cs ih =>
    intro st h1 h2 hle
    rw [sumBytes_cons] at hle
    have hstep : parseRequestBodyStep maxSize st (.data c) =
        { st with bodySize := st.bodySize + c.utf8ByteSize, body := st.body ++ c } := by
      have hno : ¬ st.bodySize + c.utf8ByteSize > maxSize := by omega
      simp [parseRequestBodyStep, h1, hno]
    simp only [List.map_cons, List.foldl_cons, hstep]
    rw [ih { st with bodySize := st.bodySize + c.utf8ByteSize, body := st.body ++ c }
      h1 h2 (by show st.bodySize + c.utf8ByteSize + sumBytes cs ≤ maxSize; omega)]
    simp [stringJoin_cons, String.append_assoc, sumBytes_cons, Nat.add_assoc]

theorem bodyData_overflow (maxSize : Nat) :
    ∀ (chunks : List String) (k : Nat) (st : BodyReaderState),
      st.resolved = false → st.sizeExceeded = false →
      k < chunks.length →
      st.bodySize + sumBytes (chunks.take k) ≤ maxSize →
      maxSize < st.bodySize + sumBytes (chunks.take (k + 1)) →
      List.foldl (parseRequestBodyStep maxSize) st (chunks.map BodyEvent.data) =
        { st with body := st.body ++ String.join (chunks.take k),
                  bodySize := st.bodySize + sumBytes (chunks.take (k + 1)),
                  sizeExceeded := true,
                  resolved := true,
                  settlements := st.settlements ++
                    [.rejected (tooLargeMessage
                      (st.bodySize + sumBytes (chunks.take (k + 1))) maxSize)] } := by
  intro chunks
  induction chunks with
  | nil => intro k st _ _ hk _ _; exact absurd hk (by simp)
  | cons c cs ih =>
    intro k st h1 h2 hk hle hgt
    simp only [List.length_cons] at hk
    cases k with
    | zero =>
      simp only [List.take_zero, sumBytes_nil, Nat.add_zero] at hle
      simp only [Nat.zero_add, List.take_succ_cons, List.take_zero, sumBytes_cons,
        sumBytes_nil, Nat.add_zero] at hgt ⊢
      have hov : st.bodySize + c.utf8ByteSize > maxSize := by omega
      have hstep : parseRequestBodyStep maxSize st (.data c) =
          { st with bodySize := st.bodySize + c.utf8ByteSize,
                    sizeExceeded := true, resolved := true,
                    settlements := st.settlements ++
                      [.rejected (tooLargeMessage (st.bodySize + c.utf8ByteSize) maxSize)] } := by
        simp [parseRequestBodyStep, safeReject, h1, h2, hov]
      simp only [List.map_cons, List.foldl_cons, hstep]
      rw [bodyFoldl_resolved maxSize _ _ rfl]
      simp [stringJoin_nil, String.append_empty]
    | succ k' =>
      simp only [List.take_succ_cons, sumBytes_cons] at hle hgt ⊢
      have hnn : 0 ≤ sumBytes (cs.take k') := Nat.zero_le _
      have hle1 : st.bodySize + c.utf8ByteSize ≤ maxSize := by omega
      have hstep : parseRequestBodyStep maxSize st (.data c) =
          { st with bodySize := st.bodySize + c.utf8ByteSize, body := st.body ++ c } := by
        have hno : ¬ st.bodySize + c.utf8ByteSize > maxSize := by omega
        simp [parseRequestBodyStep, h1, hno]
      simp only [List.map_cons, List.foldl_cons, hstep]
      rw [ih k' { st with bodySize := st.bodySize + c.utf8ByteSize, body := st.body ++ c }
        h1 h2 (by show k' < cs.length; omega)
        (by show st.bodySize + c.utf8ByteSize + sumBytes (cs.take k') ≤ maxSize; omega)
        (by show maxSize < st.bodySize + c.utf8ByteSize + sumBytes (cs.take (k' + 1)); omega)]
      simp [stringJoin_cons, String.append_assoc, Nat.add_assoc]

theorem readerInv_initial : ReaderInv initialBodyReaderState := by
  refine ⟨by simp [initialBodyReaderState], by simp [initialBodyReaderState], by simp [initialBodyReaderState]⟩

theorem bodyStep_inv (maxSize : Nat) (st : BodyReaderState) (ev : BodyEvent)
    (h : ReaderInv st) : ReaderInv (parseRequestBodyStep maxSize st ev) := by
  obtain ⟨h1, h2, h3⟩ := h
  by_cases hr : st.resolved = true
  · rw [bodyStep_resolved maxSize st ev hr]
    exact ⟨h1, h2, h3⟩
  · have hr' : st.resolved = false := by simpa using hr
    have hse : st.sizeExceeded = false := by
      cases hs : st.sizeExceeded with
      | false => rfl
      | true => rw [h1 hs] at hr'; exact Bool.noConfusion hr'
    have hset : st.settlements = [] := by
      by_contra hx
      exact hr (h2.mpr hx)
    cases ev with
    | data chunk =>
      by_cases hov : st.bodySize + chunk.utf8ByteSize > maxSize
      · simp [parseRequestBodyStep, safeReject, ReaderInv, hr', hse, hset, hov]
      · simp [parseRequestBodyStep, ReaderInv, hr', hse, hset, hov]
    | endOfStream =>
      simp [parseRequestBodyStep, safeResolve, ReaderInv, hr', hse, hset]
    | streamError =>
      simp [parseRequestBodyStep, safeReject, ReaderInv, hr', hse, hset]
    | close =>
      simp [parseRequestBodyStep, safeReject, ReaderInv, hr', hse, hset]

theorem bodyFoldl_inv (maxSize : Nat) :
    ∀ (events : List BodyEvent) (st : BodyReaderState), ReaderInv st →
      ReaderInv (List.foldl (parseRequestBodyStep maxSize) st events) := by
  intro events
  induction events with
  | nil => intro st h; exact h
  | cons e es ih =>
    intro st h
    simp only [List.foldl_cons]
    exact ih _ (bodyStep_inv maxSize st e h)

theorem bodyStep_terminal_resolves (maxSize : Nat) (st : BodyReaderState)
    (ev : BodyEvent) (hinv : ReaderInv st)
    (hev : ev = .endOfStream ∨ ev = .streamError ∨ ev = .close) :
    (parseRequestBodyStep maxSize st ev).resolved = true := by
  by_cases hr : st.resolved = true
  · rw [bodyStep_resolved maxSize st ev hr]
    exact hr
  · have hr' : st.resolved = false := by simpa using hr
    have hse : st.sizeExceeded = false := by
      cases hs : st.sizeExceeded with
      | false => rfl
      | true =>
        rw [hinv.1 hs] at hr'
        exact Bool.noConfusion hr'
    rcases hev with h | h | h <;> subst h <;>
      simp [parseRequestBodyStep, safeResolve, safeReject, hr', hse]

theorem bodyFoldl_terminal (maxSize : Nat) :
    ∀ (events : List BodyEvent) (st : BodyReaderState), ReaderInv st →
      (BodyEvent.endOfStream ∈ events ∨ BodyEvent.streamError ∈ events ∨
        BodyEvent.close ∈ events) →
      (List.foldl (parseRequestBodyStep maxSize) st events).resolved = true := by
  intro events
  induction events with
  | nil =>
    intro st _ hmem
    rcases hmem with h | h | h <;> exact absurd h (List.not_mem_nil _)
  | cons e es ih =>
    intro st hinv hmem
    simp only [List.foldl_cons]
    by_cases he : e = .endOfStream ∨ e = .streamError ∨ e = .close
    · have hres := bodyStep_terminal_resolves maxSize st e hinv he
      rw [bodyFoldl_resolved maxSize es _ hres]
      exact hres
    · push_neg at he
      have hmem' : BodyEvent.endOfStream ∈ es ∨ BodyEvent.streamError ∈ es ∨
          BodyEvent.close ∈ es := by
        rcases hmem with h | h | h <;> rw [List.mem_cons] at h
        · rcases h with h | h
          · exact absurd h.symm he.1
          · exact Or.inl h
        · rcases h with h | h
          · exact absurd h.symm he.2.1
          · exact Or.inr (Or.inl h)
        · rcases h with h | h
          · exact absurd h.symm he.2.2
          · exact Or.inr (Or.inr h)
      exact ih _ (bodyStep_inv maxSize st e hinv) hmem'

/-! ## Claim C7: request-body size limit -/

/-- Claim C7: the bounded body reader accepts a body whose total byte count
is at most maxSize (so in particular exactly maxSize bytes), resolving once
with the full payload on end-of-stream; as soon as the cumulative count
exceeds maxSize it rejects with the size-exceeded message at the first
crossing chunk, and no later chunk is ever appended to the buffered body. -/
theorem body_size_limit (maxSize : Nat) (chunks : List String) :
    (sumBytes chunks ≤ maxSize →
      (parseRequestBody maxSize
          (chunks.map BodyEvent.data ++ [BodyEvent.endOfStream])).settlements =
        [.resolved (String.join chunks)])
  ∧ (∀ k, k < chunks.length →
      sumBytes (chunks.take k) ≤ maxSize →
      maxSize < sumBytes (chunks.take (k + 1)) →
      (parseRequestBody maxSize (chunks.map BodyEvent.data)).settlements =
          [.rejected (tooLargeMessage (sumBytes (chunks.take (k + 1))) maxSize)]
        ∧ (parseRequestBody maxSize (chunks.map BodyEvent.data)).body =
            String.join (chunks.take k)) := by
  constructor
  · intro hle
    unfold parseRequestBody
    rw [List.foldl_append]
    rw [bodyData_ok maxSize chunks initialBodyReaderState rfl rfl
      (by show 0 + sumBytes chunks ≤ maxSize; omega)]
    simp [parseRequestBodyStep, safeResolve, initialBodyReaderState, String.empty_append]
  · intro k hk hle hgt
    unfold parseRequestBody
    rw [bodyData_overflow maxSize chunks k initialBodyReaderState rfl rfl hk
      (by show 0 + sumBytes (chunks.take k) ≤ maxSize; omega)
      (by show maxSize < 0 + sumBytes (chunks.take (k + 1)); omega)]
    constructor
    · show [] ++ [BodySettlement.rejected (tooLargeMessage (0 + sumBytes (chunks.take (k + 1))) maxSize)] =
        [BodySettlement.rejected (tooLargeMessage (sumBytes (chunks.take (k + 1))) maxSize)]
      rw [Nat.zero_add, List.nil_append]
    · show "" ++ String.join (chunks.take k) = String.join (chunks.take k)
      exact String.empty_append _

/-- Claim C7 witness: with maxSize = 2, a 2-byte body is accepted and
resolved with the payload; a single 3-byte chunk is rejected with the
size-exceeded message and nothing is buffered. -/
theorem body_size_limit_witness :
    (parseRequestBody 2 [BodyEvent.data "ab", BodyEvent.endOfStream]).settlements =
        [.resolved "ab"]
  ∧ (parseRequestBody 2 [BodyEvent.data "abc"]).settlements =
        [.rejected (tooLargeMessage 3 2)]
  ∧ (parseRequestBody 2 [BodyEvent.data "abc"]).body = "" := by
  have h1 := (body_size_limit 2 ["ab"]).1 (by decide)
  have h2 := (body_size_limit 2 ["abc"]).2 0 (by decide) (by decide) (by decide)
  exact ⟨h1.trans (by decide), h2.1.trans (by decide), h2.2.trans (by decide)⟩

/-! ## Claim C8: the promise settles exactly once -/

/-- Claim C8: over every interleaving of data, end, error and close events,
the reader settles at most once; when the interleaving contains a terminal
stream event (end, error or close) it settles exactly once; and once the
resolved flag is set every subsequent event leaves the state untouched, so
no second resolution or rejection can occur. -/
theorem body_reader_settles_once (maxSize : Nat) (events : List BodyEvent) :
    (parseRequestBody maxSize events).settlements.length ≤ 1
  ∧ ((BodyEvent.endOfStream ∈ events ∨ BodyEvent.streamError ∈ events ∨
        BodyEvent.close ∈ events) →
      (parseRequestBody maxSize events).settlements.length = 1)
  ∧ (∀ st ev, st.resolved = true → parseRequestBodyStep maxSize st ev = st) := by
  have hinv : ReaderInv (parseRequestBody maxSize events) :=
    bodyFoldl_inv maxSize events initialBodyReaderState readerInv_initial
  refine ⟨hinv.2.2, ?_, fun st ev h => bodyStep_resolved maxSize st ev h⟩
  intro hterm
  have hres : (parseRequestBody maxSize events).resolved = true :=
    bodyFoldl_terminal maxSize events initialBodyReaderState readerInv_initial hterm
  have hne : (parseRequestBody maxSize events).settlements ≠ [] := hinv.2.1.mp hres
  have hpos : 0 < (parseRequestBody maxSize events).settlements.length :=
    List.length_pos.mpr hne
  have hle : (parseRequestBody maxSize events).settlements.length ≤ 1 := hinv.2.2
  omega

/-- Claim C8 witness: a data chunk followed by end-of-stream produces exactly
one settlement. -/
theorem body_reader_settles_once_witness :
    (parseRequestBody 10 [BodyEvent.data "hi", BodyEvent.endOfStream]).settlements.length ≤ 1
  ∧ (parseRequestBody 10 [BodyEvent.data "hi", BodyEvent.endOfStream]).settlements.length = 1 := by
  have h := body_reader_settles_once 10 [BodyEvent.data "hi", BodyEvent.endOfStream]
  exact ⟨h.1, h.2.1 (by simp)⟩

end RooNB
